import Mathlib

/-! Verification of the example notebooks under
`bindings/python/pydeck/examples/`: a shallow embedding of the Game of Life
code in `Conway's Game of Life.ipynb` and of the notebook loops in
`Introduction.ipynb`, with proofs of the specification claims about them.
Python `%` on integers agrees with `Int.emod` for a positive modulus, and
machine reads and writes on the Python lists are modelled with `List.getD`
and `List.set` under explicit rectangularity hypotheses. -/

/-- A Game of Life board: a list of rows of cells, as in the Python lists of
lists. All values written by the notebook are 0 or 1, so cells are `Nat`. -/
abbrev Board := List (List Nat)

/-- The Python `new_board(x, y)`: `y` rows of `x` cells each. The values that
`random.choice` draws are modelled by an explicit source `rand`, applied at
the row and column index of the cell being filled. -/
def new_board (x y : Nat) (rand : Nat → Nat → Nat) : Board :=
  (List.range y).map (fun i => (List.range x).map (fun j => rand i j))

/-- The Python `get(board, x, y)`: `board[y % len(board)][x % len(board[0])]`,
wrapping out-of-bounds coordinates around the board. -/
def get (board : Board) (x y : Int) : Nat :=
  (board.getD (y % (board.length : Int)).toNat []).getD
    (x % ((board.headD []).length : Int)).toNat 0

/-- The Python `assign(board, x, y, value)`: writes `value` at the wrapped
location `(x, y)`. The Python statement mutates `board` in place; the
embedding returns the updated board. -/
def assign (board : Board) (x y : Int) (value : Nat) : Board :=
  board.set (y % (board.length : Int)).toNat
    ((board.getD (y % (board.length : Int)).toNat []).set
      (x % ((board.headD []).length : Int)).toNat value)

/-- The Python `count_neighbors(board, x, y)`: the sum of the eight wrapped
reads around `(x, y)`, in the order of the source. -/
def count_neighbors (board : Board) (x y : Int) : Nat :=
  [get board (x - 1) y,
   get board (x + 1) y,
   get board x (y - 1),
   get board x (y + 1),
   get board (x + 1) (y + 1),
   get board (x + 1) (y - 1),
   get board (x - 1) (y + 1),
   get board (x - 1) (y - 1)].sum

/-- The value the loop body of `process_life` assigns at `(x, y)`: the
`if`/`elif`/`else` chain of the Python source, with
`is_alive = (get(board, x, y) == 1)` and `num_neighbors` inlined. -/
def next_cell (board : Board) (x y : Int) : Nat :=
  if count_neighbors board x y < 2 ∧ get board x y = 1 then 0
  else if (2 ≤ count_neighbors board x y ∧ count_neighbors board x y ≤ 3) ∧
      get board x y = 1 then 1
  else if 3 < count_neighbors board x y ∧ get board x y = 1 then 0
  else if count_neighbors board x y = 3 ∧ ¬ get board x y = 1 then 1
  else 0

/-- The two list objects `process_life` works on, threaded through its loops:
the first component is the heap state of the argument `board`, the second the
scratch `next_board` created by `new_board`. Every read in the body goes to the
first component and every `assign` to the second, exactly as in the source. -/
def process_life_run (board : Board) (rand : Nat → Nat → Nat) : Board × Board :=
  (List.range board.length).foldl (fun s (y : Nat) =>
    (List.range (s.1.getD y []).length).foldl (fun s (x : Nat) =>
      (s.1, assign s.2 (x : Int) (y : Int) (next_cell s.1 x y))) s)
    (board, new_board (board.headD []).length board.length rand)

/-- The Python `process_life(board)`: the next generation, i.e. the scratch
board after both loops have run. -/
def process_life (board : Board) (rand : Nat → Nat → Nat) : Board :=
  (process_life_run board rand).2

/-- The cell of `board` at row `i`, column `j` (0 when out of range). -/
def cell (board : Board) (i j : Nat) : Nat :=
  (board.getD i []).getD j 0

/-- `board` is a rectangular matrix of `h` rows and `w` columns. -/
def rect (board : Board) (h w : Nat) : Prop :=
  board.length = h ∧ ∀ row ∈ board, row.length = w

/-- Every cell of `board` is 0 or 1. -/
def cells01 (board : Board) : Prop :=
  ∀ row ∈ board, ∀ c ∈ row, c = 0 ∨ c = 1

/-- The eight Moore offsets, in the order `count_neighbors` reads them. -/
def moore_offsets : List (Int × Int) :=
  [(-1, 0), (1, 0), (0, -1), (0, 1), (1, 1), (1, -1), (-1, 1), (-1, -1)]

/-- The in-range position (row, column) that the wrapped coordinates `(x, y)`
denote on `board`. -/
def wrap_index (board : Board) (x y : Int) : Nat × Nat :=
  ((y % (board.length : Int)).toNat, (x % ((board.headD []).length : Int)).toNat)

/-- The eight wrapped Moore-neighbour positions of `(x, y)` on `board`. -/
def moore_neighbors (board : Board) (x y : Int) : List (Nat × Nat) :=
  moore_offsets.map (fun d => wrap_index board (x + d.1) (y + d.2))

/-- The (row, column) iteration points of `process_life`'s nested loops:
`y` over `range(len(board))`, then `x` over `range(len(board[y]))`. -/
def life_visits (board : Board) : List (Nat × Nat) :=
  ((List.range board.length).map (fun y =>
    (List.range (board.getD y []).length).map (fun x => (y, x)))).flatten

/-- The `PINK` color constant of the PyDeck cell. -/
def PINK : List Nat := [155, 155, 255, 245]

/-- The `PURPLE` color constant of the PyDeck cell. -/
def PURPLE : List Nat := [255, 155, 255, 245]

/-- The `BLACK` color constant defined in the stacked-iterations cell. -/
def BLACK : List Nat := [0, 0, 0, 255]

/-- One record produced by `convert_board_to_df`: a scaled 2-D position and a
color. Positions are modelled with exact rationals in place of Python floats;
the claims proved about the records do not depend on rounding. -/
structure LifeRecord where
  position : Rat × Rat
  color : List Nat
deriving DecidableEq, Repr

/-- The 2-D `convert_board_to_df(board)`: one record per cell, columns in the
outer loop and rows in the inner loop, colored `PURPLE` when `board[y][x]` is
truthy and `PINK` otherwise. -/
def convert_board_to_df (board : Board) : List LifeRecord :=
  ((List.range (board.headD []).length).map (fun (x : Nat) =>
    (List.range board.length).map (fun (y : Nat) =>
      LifeRecord.mk ((x : Rat) / 1000, (y : Rat) / 1000)
        (if cell board y x ≠ 0 then PURPLE else PINK)))).flatten

/-- `k` applications of `process_life`, feeding each generation to the next;
`rands k` is the value source the scratch board of step `k` uses. -/
def iterate_life (board : Board) (rands : Nat → Nat → Nat → Nat) : Nat → Board
  | 0 => board
  | k + 1 => process_life (iterate_life board rands k) (rands k)

/-- The animation loop of the PyDeck cell: at each `i` in
`range(NUM_ITERATIONS)` it advances `board = process_life(board)`, computes
`records = convert_board_to_df(board)` from that new board, and hands the
records to the layer before the refresh. The state is the current board and
the sequence of record lists handed over so far, in order. -/
def animation_loop (board0 : Board) (rands : Nat → Nat → Nat → Nat) (n : Nat) :
    Board × List (List LifeRecord) :=
  (List.range n).foldl (fun s i =>
    (process_life s.1 (rands i),
     s.2 ++ [convert_board_to_df (process_life s.1 (rands i))]))
    (board0, [])

/-- A Python runtime error, as far as the notebook can raise one: evaluating
an undefined name raises `NameError`. -/
inductive PyError where
  | nameError (missing : String)
deriving DecidableEq, Repr

/-- One record of the stacked-iterations variant: a 3-D position whose last
coordinate is `iteration * 1000`, and a color. -/
structure LifeRecord3 where
  position : Rat × Rat × Rat
  color : List Nat
deriving DecidableEq, Repr

/-- The color expression of the stacked-iterations cell for a dead cell: the
name `TRANSPARENT`, which no cell of the notebook ever defines (the constant
defined there is `BLACK`), so evaluating it raises `NameError`. -/
def transparent_color : Except PyError (List Nat) :=
  Except.error (PyError.nameError ("TRANSPARENT"))

/-- One inner-loop step of the stacked-iterations
`convert_board_to_df(board, iteration)`: append the record for cell
`(x, y)`, the dead-cell branch evaluating the undefined name `TRANSPARENT`.
A Python exception aborts the call, so a raised accumulator is passed on. -/
def df_iter_step (board : Board) (iter x : Nat)
    (acc : Except PyError (List LifeRecord3)) (y : Nat) :
    Except PyError (List LifeRecord3) :=
  match acc with
  | Except.error e => Except.error e
  | Except.ok rows =>
    if cell board y x ≠ 0 then
      Except.ok (rows ++
        [LifeRecord3.mk ((x : Rat) / 1000, (y : Rat) / 1000, (iter : Rat) * 1000) PURPLE])
    else
      match transparent_color with
      | Except.error e => Except.error e
      | Except.ok c =>
        Except.ok (rows ++
          [LifeRecord3.mk ((x : Rat) / 1000, (y : Rat) / 1000, (iter : Rat) * 1000) c])

/-- The inner loop (over `y`) of the stacked-iterations converter at column
`x`. -/
def df_iter_col (board : Board) (iter : Nat)
    (acc : Except PyError (List LifeRecord3)) (x : Nat) :
    Except PyError (List LifeRecord3) :=
  (List.range board.length).foldl (df_iter_step board iter x) acc

/-- The stacked-iterations `convert_board_to_df(board, iteration)`: the same
nested loops as the 2-D converter, but the dead-cell branch evaluates the
undefined name `TRANSPARENT`, so the call raises as soon as a dead cell is
reached. -/
def convert_board_to_df_iter (board : Board) (iter : Nat) :
    Except PyError (List LifeRecord3) :=
  (List.range (board.headD []).length).foldl (df_iter_col board iter)
    (Except.ok [])

/-- The `pdk.ViewState` constructed in `Introduction.ipynb`, with the keyword
attributes passed there. -/
structure ViewState where
  longitude : Rat
  latitude : Rat
  zoom : Rat
  min_zoom : Nat
  max_zoom : Nat
  pitch : Rat
  bearing : Rat
deriving DecidableEq, Repr

/-- The `pdk.Layer` object of `Introduction.ipynb`: the layer type tag, the
data (a URL string there), and the layer-specific keyword attributes. -/
structure Layer where
  type : String
  data : String
  elevation_scale : Nat
  elevation_range : List Nat
  extruded : Bool
  coverage : Nat
deriving DecidableEq, Repr

/-- The `pdk.Deck` object: it keeps references to its layer objects (modelled
as opaque reference tokens, since mutating the layer in place is visible
through the deck) together with its own attributes. -/
structure Deck where
  layer_refs : List Nat
  initial_view_state : ViewState
deriving DecidableEq, Repr

/-- What one statement of the update loops does to the rendering pipeline. -/
inductive RenderEvent where
  | constructLayer
  | constructDeck
  | setLayerAttr (attr : String)
  | update
deriving DecidableEq, Repr

/-- The update loop of `Introduction.ipynb`:
`for i in range(0, 10000, 1000): layer.elevation_range = [0, i]; r.update()`.
The state is the layer object, the deck object and the trace of events; each
iteration rebinds `elevation_range` on the existing layer and refreshes. -/
def intro_loop (l : Layer) (d : Deck) : (Layer × Deck) × List RenderEvent :=
  (List.range' 0 10 1000).foldl (fun s i =>
    ((⟨s.1.1.type, s.1.1.data, s.1.1.elevation_scale, [0, i],
       s.1.1.extruded, s.1.1.coverage⟩, s.1.2),
     s.2 ++ [RenderEvent.setLayerAttr ("elevation_range"), RenderEvent.update]))
    ((l, d), [])

/-- A JSON value, for the specification JSON handed to the widget. -/
inductive JValue where
  | jnull
  | jbool (b : Bool)
  | jnum (q : Rat)
  | jstr (s : String)
  | jarr (xs : List JValue)
  | jobj (fields : List (String × JValue))

/-- A layer descriptor as it appears in the JSON specification: a type tag and
a free-form property bag. -/
structure JLayer where
  type : String
  props : List (String × JValue)

/-- A deck as the serializer sees it: an initial view state, layer
descriptors, and views. -/
structure JDeck where
  initial_view_state : List (String × JValue)
  layers : List JLayer
  views : List JValue

/-- Modelled from the spec: the pydeck `Deck.to_json` serializer itself is not
among the supplied sources (only the notebooks that call `Deck`, `show` and
`update` are). Per the spec, the JSON sent to the rendering widget is an
object whose keys include `initialViewState`, `layers` (a list of layer
descriptors, each with a type tag and a free-form property bag) and `views`;
the widget output embedded in the notebooks shows the same `initialViewState`
object. -/
def deck_to_json (d : JDeck) : JValue :=
  JValue.jobj [("initialViewState", JValue.jobj d.initial_view_state),
               ("layers", JValue.jarr (d.layers.map (fun l =>
                 JValue.jobj (("type", JValue.jstr l.type) :: l.props)))),
               ("views", JValue.jarr d.views)]

/-- The keys of a JSON object (empty for the other forms). -/
def jkeys : JValue → List String
  | JValue.jobj fields => fields.map Prod.fst
  | _ => []

/-- Look a key up in a JSON object. -/
def jget (v : JValue) (key : String) : Option JValue :=
  match v with
  | JValue.jobj fields => (fields.find? (fun kv => kv.1 == key)).map Prod.snd
  | _ => none

/-! Basic lemmas about the embedding. -/

/-- A fold whose step keeps the first component fixed keeps it fixed. -/
theorem foldl_fst_invariant {α β γ : Type _} (F : α × β → γ → α × β)
    (hF : ∀ s c, (F s c).1 = s.1) (l : List γ) (s : α × β) :
    (l.foldl F s).1 = s.1 := by
  induction l generalizing s with
  | nil => rfl
  | cons hd tl ih => rw [List.foldl_cons, ih, hF]

/-- A fold whose step is `(s.1, f s.1 s.2 c)` acts on the second component
with the first frozen at its initial value. -/
theorem foldl_pair_fst {α β γ : Type _} (f : α → β → γ → β) (l : List γ)
    (a : α) (b : β) :
    l.foldl (fun s c => (s.1, f s.1 s.2 c)) (a, b) =
      (a, l.foldl (fun t c => f a t c) b) := by
  induction l generalizing b with
  | nil => rfl
  | cons hd tl ih => simpa using ih (f a b hd)

/-- `process_life` never writes to its argument board. -/
theorem process_life_run_fst (board : Board) (rand : Nat → Nat → Nat) :
    (process_life_run board rand).1 = board := by
  unfold process_life_run
  refine foldl_fst_invariant _ (fun s y => ?_) _ _
  exact foldl_fst_invariant
    (fun s (x : Nat) => (s.1, assign s.2 (x : Int) (y : Int) (next_cell s.1 x y)))
    (fun s x => rfl) _ s

/-- `process_life` as a pure fold of `assign`s over the input board. -/
theorem process_life_eq (board : Board) (rand : Nat → Nat → Nat) :
    process_life board rand =
      (List.range board.length).foldl (fun nb (y : Nat) =>
        (List.range (board.getD y []).length).foldl (fun nb (x : Nat) =>
          assign nb (x : Int) (y : Int) (next_cell board x y)) nb)
        (new_board (board.headD []).length board.length rand) := by
  have hfun : (fun (s : Board × Board) (y : Nat) =>
      (List.range (s.1.getD y []).length).foldl
        (fun s (x : Nat) => (s.1, assign s.2 (x : Int) (y : Int) (next_cell s.1 x y))) s) =
      (fun (s : Board × Board) (y : Nat) =>
      (s.1, (List.range (s.1.getD y []).length).foldl
        (fun t (x : Nat) => assign t (x : Int) (y : Int) (next_cell s.1 x y)) s.2)) := by
    funext s y
    exact foldl_pair_fst (fun a t (x : Nat) => assign t (x : Int) (y : Int) (next_cell a x y))
      (List.range (s.1.getD y []).length) s.1 s.2
  show (process_life_run board rand).2 = _
  unfold process_life_run
  rw [hfun, foldl_pair_fst (fun a b (y : Nat) =>
    (List.range (a.getD y []).length).foldl
      (fun t (x : Nat) => assign t (x : Int) (y : Int) (next_cell a x y)) b)]

/-- Wrapped coordinates land inside the board. -/
theorem emod_toNat_lt (a : Int) {n : Nat} (hn : 0 < n) :
    (a % (n : Int)).toNat < n := by
  have h1 : 0 ≤ a % (n : Int) := Int.emod_nonneg a (by exact_mod_cast hn.ne')
  have h2 : a % (n : Int) < (n : Int) := Int.emod_lt_of_pos a (by exact_mod_cast hn)
  omega

/-- An in-range coordinate is left alone by the wrap. -/
theorem natcast_emod_toNat {y h : Nat} (hy : y < h) :
    ((y : Int) % (h : Int)).toNat = y := by
  rw [Int.emod_eq_of_lt (by positivity) (by exact_mod_cast hy)]
  omega

/-- Each row of a rectangular board has length `w`. -/
theorem rect_row_len {board : Board} {h w : Nat} (hr : rect board h w)
    {i : Nat} (hi : i < h) : (board.getD i []).length = w := by
  have hlen : i < board.length := hr.1 ▸ hi
  rw [List.getD_eq_getElem _ _ hlen]
  exact hr.2 _ (List.getElem_mem hlen)

/-- `board[0]` of a non-empty rectangular board has length `w`. -/
theorem rect_head_len {board : Board} {h w : Nat} (hr : rect board h w)
    (hh : 0 < h) : (board.headD []).length = w := by
  have h0 : board.getD 0 [] = board.headD [] := by
    cases board with
    | nil => rfl
    | cons r t => rfl
  rw [← h0]
  exact rect_row_len hr hh

/-- `new_board x y` is a rectangular `y × x` board. -/
theorem new_board_rect (x y : Nat) (rand : Nat → Nat → Nat) :
    rect (new_board x y rand) y x := by
  constructor
  · simp [new_board]
  · intro row hrow
    simp only [new_board, List.mem_map, List.mem_range] at hrow
    obtain ⟨i, hi, rfl⟩ := hrow
    simp

/-- `assign` preserves the shape of a non-empty rectangular board. -/
theorem assign_rect {board : Board} {h w : Nat} (hr : rect board h w)
    (hh : 0 < h) (x y : Int) (v : Nat) : rect (assign board x y v) h w := by
  unfold assign
  constructor
  · rw [List.length_set]
    exact hr.1
  · intro row hrow
    rcases List.mem_or_eq_of_mem_set hrow with hmem | hrow'
    · exact hr.2 _ hmem
    · rw [hrow', List.length_set]
      refine rect_row_len hr ?_
      rw [← hr.1]
      exact emod_toNat_lt y (hr.1 ▸ hh)

/-- What `assign` does to every cell of a non-empty rectangular board: it
writes `v` at the wrapped position and leaves every other cell alone. -/
theorem cell_assign {board : Board} {h w : Nat} (hr : rect board h w)
    (hh : 0 < h) (hw : 0 < w) (x y : Int) (v : Nat) (i j : Nat) :
    cell (assign board x y v) i j =
      if i = (y % (h : Int)).toNat ∧ j = (x % (w : Int)).toNat then v
      else cell board i j := by
  have hyl : (y % (h : Int)).toNat < h := emod_toNat_lt y hh
  have hxl : (x % (w : Int)).toNat < w := emod_toNat_lt x hw
  unfold assign cell
  rw [hr.1, rect_head_len hr hh]
  simp only [List.getD_eq_getElem?_getD]
  rw [List.getElem?_set]
  have hrl : (y % (h : Int)).toNat < board.length := by
    rw [hr.1]
    exact hyl
  have hrowlen : (board[(y % (h : Int)).toNat]?.getD []).length = w := by
    rw [← List.getD_eq_getElem?_getD]
    exact rect_row_len hr hyl
  by_cases hir : (y % (h : Int)).toNat = i
  · rw [if_pos hir, if_pos hrl]
    simp only [Option.getD_some]
    rw [List.getElem?_set]
    by_cases hjc : (x % (w : Int)).toNat = j
    · rw [if_pos hjc, if_pos (show (x % (w : Int)).toNat <
        (board[(y % (h : Int)).toNat]?.getD []).length by
          rw [hrowlen]
          exact hxl)]
      rw [if_pos ⟨hir.symm, hjc.symm⟩]
      rfl
    · rw [if_neg hjc, if_neg (by
        intro hand
        exact hjc hand.2.symm)]
      rw [← hir]
  · rw [if_neg hir, if_neg (by
      intro hand
      exact hir hand.1.symm)]

/-- A row of `assign`s preserves the board's shape. -/
theorem foldl_assign_rect {h w : Nat} (hh : 0 < h) (f : Nat → Nat) (y : Nat)
    (l : List Nat) :
    ∀ {nb : Board}, rect nb h w →
      rect (l.foldl (fun t (x : Nat) => assign t (x : Int) (y : Int) (f x)) nb) h w := by
  induction l with
  | nil => exact fun hnb => hnb
  | cons hd tl ih =>
    intro nb hnb
    exact ih (assign_rect hnb hh _ _ _)

/-- The whole nest of `assign`s preserves the board's shape. -/
theorem foldl_rows_rect {board : Board} {h w : Nat} (hh : 0 < h)
    (g : Nat → Nat → Nat) (l : List Nat) :
    ∀ {nb : Board}, rect nb h w →
      rect (l.foldl (fun t (y : Nat) =>
        (List.range (board.getD y []).length).foldl
          (fun t (x : Nat) => assign t (x : Int) (y : Int) (g x y)) t) nb) h w := by
  induction l with
  | nil => exact fun hnb => hnb
  | cons hd tl ih =>
    intro nb hnb
    exact ih (foldl_assign_rect hh (fun x => g x hd) hd _ hnb)

/-- Cell contents after the inner loop over a prefix of a row: positions
`(y, j)` with `j < n` hold the freshly assigned values, all others are
untouched. -/
theorem cell_foldl_row {h w : Nat} (hh : 0 < h) (hw : 0 < w)
    {y : Nat} (hy : y < h) (f : Nat → Nat) (n : Nat) (hn : n ≤ w) (i j : Nat)
    {nb : Board} (hnb : rect nb h w) :
    cell ((List.range n).foldl
        (fun t (x : Nat) => assign t (x : Int) (y : Int) (f x)) nb) i j =
      if i = y ∧ j < n then f j else cell nb i j := by
  induction n with
  | zero => simp
  | succ m ih =>
    rw [List.range_succ, List.foldl_append, List.foldl_cons, List.foldl_nil]
    have hrect : rect ((List.range m).foldl
        (fun t (x : Nat) => assign t (x : Int) (y : Int) (f x)) nb) h w :=
      foldl_assign_rect hh f y _ hnb
    rw [cell_assign hrect hh hw _ _ _ i j, natcast_emod_toNat hy,
      natcast_emod_toNat (show m < w by omega), ih (by omega)]
    by_cases hiy : i = y
    · by_cases hjm : j = m
      · rw [if_pos ⟨hiy, hjm⟩, if_pos ⟨hiy, by omega⟩]
        rw [hjm]
      · rw [if_neg (fun hand => hjm hand.2)]
        by_cases hjlt : j < m
        · rw [if_pos ⟨hiy, hjlt⟩, if_pos ⟨hiy, by omega⟩]
        · rw [if_neg (fun hand => hjlt hand.2), if_neg (fun hand => by omega)]
    · rw [if_neg (fun hand => hiy hand.1), if_neg (fun hand => hiy hand.1),
        if_neg (fun hand => hiy hand.1)]

/-- Cell contents after the outer loop over a prefix of the rows of a
rectangular board: rows `i < m` hold the freshly assigned values, all other
rows are untouched. -/
theorem cell_foldl_board {board : Board} {h w : Nat} (hb : rect board h w)
    (hh : 0 < h) (hw : 0 < w) (g : Nat → Nat → Nat) (m : Nat) (hm : m ≤ h)
    (i j : Nat) (hj : j < w) {nb : Board} (hnb : rect nb h w) :
    cell ((List.range m).foldl (fun t (y : Nat) =>
        (List.range (board.getD y []).length).foldl
          (fun t (x : Nat) => assign t (x : Int) (y : Int) (g x y)) t) nb) i j =
      if i < m then g j i else cell nb i j := by
  induction m with
  | zero => simp
  | succ k ih =>
    rw [List.range_succ, List.foldl_append, List.foldl_cons, List.foldl_nil]
    have hrect : rect ((List.range k).foldl (fun t (y : Nat) =>
        (List.range (board.getD y []).length).foldl
          (fun t (x : Nat) => assign t (x : Int) (y : Int) (g x y)) t) nb) h w :=
      foldl_rows_rect hh g _ hnb
    rw [rect_row_len hb (show k < h by omega)]
    rw [cell_foldl_row hh hw (show k < h by omega) (fun x => g x k) w le_rfl i j hrect]
    rw [ih (by omega)]
    by_cases hik : i = k
    · rw [if_pos ⟨hik, hj⟩, if_pos (by omega), hik]
    · rw [if_neg (fun hand => hik hand.1)]
      by_cases hilt : i < k
      · rw [if_pos hilt, if_pos (by omega)]
      · rw [if_neg hilt, if_neg (by omega)]

/-- The scratch board starts rectangular. -/
theorem new_board_rect' {board : Board} {h w : Nat} (hb : rect board h w)
    (hh : 0 < h) (rand : Nat → Nat → Nat) :
    rect (new_board (board.headD []).length h rand) h w := by
  rw [rect_head_len hb hh]
  exact new_board_rect w h rand

/-- The shape of one generation: `process_life` keeps the board `h × w`. -/
theorem process_life_rect {board : Board} {h w : Nat} (hb : rect board h w)
    (hh : 0 < h) (rand : Nat → Nat → Nat) :
    rect (process_life board rand) h w := by
  rw [process_life_eq]
  rw [hb.1]
  exact foldl_rows_rect hh (fun x y => next_cell board x y) (List.range h)
    (new_board_rect' hb hh rand)

/-- The central cell-level description of `process_life`: the cell at row `i`,
column `j` of the next generation is `next_cell` of the input board there. -/
theorem process_life_cell {board : Board} {h w : Nat} (hb : rect board h w)
    (hh : 0 < h) (hw : 0 < w) (rand : Nat → Nat → Nat) {i j : Nat}
    (hi : i < h) (hj : j < w) :
    cell (process_life board rand) i j = next_cell board (j : Int) (i : Int) := by
  rw [process_life_eq, hb.1]
  rw [cell_foldl_board hb hh hw (fun x y => next_cell board x y) h le_rfl i j hj
    (new_board_rect' hb hh rand)]
  rw [if_pos hi]

/-- Two rectangular boards with equal cells are equal. -/
theorem board_ext {b1 b2 : Board} {h w : Nat} (h1 : rect b1 h w)
    (h2 : rect b2 h w) (hc : ∀ i, i < h → ∀ j, j < w → cell b1 i j = cell b2 i j) :
    b1 = b2 := by
  apply List.ext_getElem (by rw [h1.1, h2.1])
  intro n hn1 hn2
  apply List.ext_getElem
  · rw [h1.2 _ (List.getElem_mem hn1), h2.2 _ (List.getElem_mem hn2)]
  intro m hm1 hm2
  have hn : n < h := h1.1 ▸ hn1
  have hm : m < w := by
    rw [h1.2 _ (List.getElem_mem hn1)] at hm1
    exact hm1
  have hcell := hc n hn m hm
  rw [cell, cell, List.getD_eq_getElem _ _ hn1, List.getD_eq_getElem _ _ hn2,
    List.getD_eq_getElem _ _ hm1, List.getD_eq_getElem _ _ hm2] at hcell
  exact hcell

/-- An in-range cell of a 0/1 board is 0 or 1. -/
theorem cell_01 {board : Board} {h w : Nat} (hb : rect board h w)
    (hc : cells01 board) {i j : Nat} (hi : i < h) (hj : j < w) :
    cell board i j = 0 ∨ cell board i j = 1 := by
  have hi' : i < board.length := hb.1 ▸ hi
  have hrow : board[i] ∈ board := List.getElem_mem hi'
  have hj' : j < board[i].length := by
    rw [hb.2 _ hrow]
    exact hj
  have hcell : cell board i j = board[i][j] := by
    rw [cell, List.getD_eq_getElem _ _ hi', List.getD_eq_getElem _ _ hj']
  rw [hcell]
  exact hc _ hrow _ (List.getElem_mem hj')

/-- `get` is the cell at the wrapped position. -/
theorem get_eq_cell {board : Board} {h w : Nat} (hb : rect board h w)
    (hh : 0 < h) (hw : 0 < w) (x y : Int) :
    get board x y = cell board (y % (h : Int)).toNat (x % (w : Int)).toNat := by
  have hdef : get board x y =
      cell board (y % (board.length : Int)).toNat
        (x % ((board.headD []).length : Int)).toNat := rfl
  rw [hdef, hb.1, rect_head_len hb hh]

/-- A wrapped read from a 0/1 board is 0 or 1. -/
theorem get_01 {board : Board} {h w : Nat} (hb : rect board h w)
    (hh : 0 < h) (hw : 0 < w) (hc : cells01 board) (x y : Int) :
    get board x y = 0 ∨ get board x y = 1 := by
  rw [get_eq_cell hb hh hw]
  exact cell_01 hb hc (emod_toNat_lt y hh) (emod_toNat_lt x hw)

/-- Every value the loop body assigns is 0 or 1. -/
theorem next_cell_01 (board : Board) (x y : Int) :
    next_cell board x y = 0 ∨ next_cell board x y = 1 := by
  unfold next_cell
  split_ifs <;> simp

/-- Claim C1: for every non-empty rectangular 0/1 board, the cell at `(x, y)`
of `process_life(board)` (row `y`, column `x` of the result) obeys the four
Game of Life rules with respect to the toroidal neighbor count
`n = count_neighbors(board, x, y)`: a live cell with `n < 2` becomes 0, a
live cell with `n` equal to 2 or 3 stays 1, a live cell with `n > 3` becomes
0, a dead cell with `n = 3` becomes 1, and in every other case the cell is 0. -/
theorem C1_life_rules {board : Board} {h w : Nat} (hb : rect board h w)
    (hh : 0 < h) (hw : 0 < w) (hc : cells01 board) (rand : Nat → Nat → Nat)
    {x y : Nat} (hx : x < w) (hy : y < h) :
    (get board (x : Int) (y : Int) = 1 → count_neighbors board (x : Int) (y : Int) < 2 →
      cell (process_life board rand) y x = 0) ∧
    (get board (x : Int) (y : Int) = 1 →
      (count_neighbors board (x : Int) (y : Int) = 2 ∨
       count_neighbors board (x : Int) (y : Int) = 3) →
      cell (process_life board rand) y x = 1) ∧
    (get board (x : Int) (y : Int) = 1 → 3 < count_neighbors board (x : Int) (y : Int) →
      cell (process_life board rand) y x = 0) ∧
    (get board (x : Int) (y : Int) = 0 → count_neighbors board (x : Int) (y : Int) = 3 →
      cell (process_life board rand) y x = 1) ∧
    (get board (x : Int) (y : Int) = 0 → count_neighbors board (x : Int) (y : Int) ≠ 3 →
      cell (process_life board rand) y x = 0) := by
  rw [process_life_cell hb hh hw rand hy hx]
  unfold next_cell
  refine ⟨?_, ?_, ?_, ?_, ?_⟩ <;> intro ha hn <;> split_ifs with h1 h2 h3 h4 <;> omega

/-- Witness for C1 on the concrete board `[[1, 1], [0, 0]]` at `(0, 0)`. -/
theorem C1_life_rules_witness :
    (get [[1, 1], [0, 0]] (0 : Int) (0 : Int) = 1 →
      count_neighbors [[1, 1], [0, 0]] (0 : Int) (0 : Int) < 2 →
      cell (process_life [[1, 1], [0, 0]] (fun a b => 0)) 0 0 = 0) ∧
    (get [[1, 1], [0, 0]] (0 : Int) (0 : Int) = 1 →
      (count_neighbors [[1, 1], [0, 0]] (0 : Int) (0 : Int) = 2 ∨
       count_neighbors [[1, 1], [0, 0]] (0 : Int) (0 : Int) = 3) →
      cell (process_life [[1, 1], [0, 0]] (fun a b => 0)) 0 0 = 1) ∧
    (get [[1, 1], [0, 0]] (0 : Int) (0 : Int) = 1 →
      3 < count_neighbors [[1, 1], [0, 0]] (0 : Int) (0 : Int) →
      cell (process_life [[1, 1], [0, 0]] (fun a b => 0)) 0 0 = 0) ∧
    (get [[1, 1], [0, 0]] (0 : Int) (0 : Int) = 0 →
      count_neighbors [[1, 1], [0, 0]] (0 : Int) (0 : Int) = 3 →
      cell (process_life [[1, 1], [0, 0]] (fun a b => 0)) 0 0 = 1) ∧
    (get [[1, 1], [0, 0]] (0 : Int) (0 : Int) = 0 →
      count_neighbors [[1, 1], [0, 0]] (0 : Int) (0 : Int) ≠ 3 →
      cell (process_life [[1, 1], [0, 0]] (fun a b => 0)) 0 0 = 0) :=
  @C1_life_rules [[1, 1], [0, 0]] 2 2 (by unfold rect; decide) (by decide)
    (by decide) (by unfold cells01; decide) (fun a b => 0) 0 0 (by decide)
    (by decide)

/-- Claim C4: on a non-empty rectangular 0/1 board `process_life` returns a
rectangular board of the same height and width whose cells are all 0 or 1,
and the input board itself is left unchanged: the loops only read the first
component of the run state and only `assign` into the scratch board. -/
theorem C4_shape_preserved {board : Board} {h w : Nat} (hb : rect board h w)
    (hh : 0 < h) (hw : 0 < w) (hc : cells01 board) (rand : Nat → Nat → Nat) :
    rect (process_life board rand) h w ∧
    cells01 (process_life board rand) ∧
    (process_life_run board rand).1 = board := by
  have hre : rect (process_life board rand) h w := process_life_rect hb hh rand
  refine ⟨hre, ?_, process_life_run_fst board rand⟩
  intro row hrow c hcmem
  obtain ⟨i, hi, rfl⟩ := List.mem_iff_getElem.mp hrow
  obtain ⟨j, hj, rfl⟩ := List.mem_iff_getElem.mp hcmem
  have hi' : i < h := hre.1 ▸ hi
  have hj' : j < w := by
    rw [hre.2 _ (List.getElem_mem hi)] at hj
    exact hj
  have hcell : cell (process_life board rand) i j =
      (process_life board rand)[i][j] := by
    rw [cell, List.getD_eq_getElem _ _ hi, List.getD_eq_getElem _ _ hj]
  rw [← hcell, process_life_cell hb hh hw rand hi' hj']
  exact next_cell_01 board (j : Int) (i : Int)

/-- Witness for C4 on the concrete board `[[1, 1], [0, 0]]`. -/
theorem C4_shape_preserved_witness :
    rect (process_life [[1, 1], [0, 0]] (fun a b => a + b)) 2 2 ∧
    cells01 (process_life [[1, 1], [0, 0]] (fun a b => a + b)) ∧
    (process_life_run [[1, 1], [0, 0]] (fun a b => a + b)).1 = [[1, 1], [0, 0]] :=
  @C4_shape_preserved [[1, 1], [0, 0]] 2 2 (by unfold rect; decide) (by decide)
    (by decide) (by unfold cells01; decide) (fun a b => a + b)

/-- Claim C5: `process_life` is deterministic despite the randomly initialized
scratch board: every cell of the scratch board is overwritten, so two runs on
the same non-empty rectangular board agree whatever values the two scratch
boards start with. -/
theorem C5_deterministic {board : Board} {h w : Nat} (hb : rect board h w)
    (hh : 0 < h) (hw : 0 < w) (rand1 rand2 : Nat → Nat → Nat) :
    process_life board rand1 = process_life board rand2 := by
  apply board_ext (process_life_rect hb hh rand1) (process_life_rect hb hh rand2)
  intro i hi j hj
  rw [process_life_cell hb hh hw rand1 hi hj, process_life_cell hb hh hw rand2 hi hj]

/-- Witness for C5: two runs with different scratch values coincide. -/
theorem C5_deterministic_witness :
    process_life [[1, 1], [0, 0]] (fun a b => 0) =
      process_life [[1, 1], [0, 0]] (fun a b => a + b + 1) :=
  @C5_deterministic [[1, 1], [0, 0]] 2 2 (by unfold rect; decide) (by decide)
    (by decide) (fun a b => 0) (fun a b => a + b + 1)

/-- Shifting the column coordinate by the width leaves a wrapped read
unchanged. -/
theorem get_add_w {board : Board} {h w : Nat} (hb : rect board h w)
    (hh : 0 < h) (hw : 0 < w) (x y : Int) :
    get board (x + (w : Int)) y = get board x y := by
  have hxw : (x + (w : Int)) % (w : Int) = x % (w : Int) := by
    have hmul := Int.add_mul_emod_self_left x (w : Int) 1
    simpa using hmul
  rw [get_eq_cell hb hh hw, get_eq_cell hb hh hw, hxw]

/-- Shifting the row coordinate by the height leaves a wrapped read
unchanged. -/
theorem get_add_h {board : Board} {h w : Nat} (hb : rect board h w)
    (hh : 0 < h) (hw : 0 < w) (x y : Int) :
    get board x (y + (h : Int)) = get board x y := by
  have hyh : (y + (h : Int)) % (h : Int) = y % (h : Int) := by
    have hmul := Int.add_mul_emod_self_left y (h : Int) 1
    simpa using hmul
  rw [get_eq_cell hb hh hw, get_eq_cell hb hh hw, hyh]

/-- Claim C2: the board wraps toroidally. For all integer coordinates,
`get(board, x, y)` is `board[y mod height][x mod width]`, `assign` writes to
exactly that position and nowhere else, and consequently neighbor counting at
every cell wraps around to the opposite side: shifting a coordinate by the
width or the height does not change the count. -/
theorem C2_toroidal {board : Board} {h w : Nat} (hb : rect board h w)
    (hh : 0 < h) (hw : 0 < w) (x y : Int) (v : Nat) (i j : Nat) :
    get board x y = cell board (y % (h : Int)).toNat (x % (w : Int)).toNat ∧
    cell (assign board x y v) i j =
      (if i = (y % (h : Int)).toNat ∧ j = (x % (w : Int)).toNat then v
       else cell board i j) ∧
    count_neighbors board (x + (w : Int)) y = count_neighbors board x y ∧
    count_neighbors board x (y + (h : Int)) = count_neighbors board x y := by
  refine ⟨get_eq_cell hb hh hw x y, cell_assign hb hh hw x y v i j, ?_, ?_⟩
  · unfold count_neighbors
    rw [show x + (w : Int) - 1 = x - 1 + (w : Int) by ring,
      show x + (w : Int) + 1 = x + 1 + (w : Int) by ring,
      get_add_w hb hh hw (x - 1) y, get_add_w hb hh hw (x + 1) y,
      get_add_w hb hh hw x (y - 1), get_add_w hb hh hw x (y + 1),
      get_add_w hb hh hw (x + 1) (y + 1), get_add_w hb hh hw (x + 1) (y - 1),
      get_add_w hb hh hw (x - 1) (y + 1), get_add_w hb hh hw (x - 1) (y - 1)]
  · unfold count_neighbors
    rw [show y + (h : Int) - 1 = y - 1 + (h : Int) by ring,
      show y + (h : Int) + 1 = y + 1 + (h : Int) by ring,
      get_add_h hb hh hw (x - 1) y, get_add_h hb hh hw (x + 1) y,
      get_add_h hb hh hw x (y - 1), get_add_h hb hh hw x (y + 1),
      get_add_h hb hh hw (x + 1) (y + 1), get_add_h hb hh hw (x + 1) (y - 1),
      get_add_h hb hh hw (x - 1) (y + 1), get_add_h hb hh hw (x - 1) (y - 1)]

/-- Witness for C2 on `[[0, 1], [1, 0]]` with out-of-range coordinates. -/
theorem C2_toroidal_witness :
    get [[0, 1], [1, 0]] (-1) 5 =
      cell [[0, 1], [1, 0]] ((5 % (2 : Int)).toNat) (((-1) % (2 : Int)).toNat) ∧
    cell (assign [[0, 1], [1, 0]] (-1) 5 7) 0 1 =
      (if 0 = (5 % (2 : Int)).toNat ∧ 1 = ((-1) % (2 : Int)).toNat then 7
       else cell [[0, 1], [1, 0]] 0 1) ∧
    count_neighbors [[0, 1], [1, 0]] (-1 + (2 : Int)) 5 =
      count_neighbors [[0, 1], [1, 0]] (-1) 5 ∧
    count_neighbors [[0, 1], [1, 0]] (-1) (5 + (2 : Int)) =
      count_neighbors [[0, 1], [1, 0]] (-1) 5 :=
  @C2_toroidal [[0, 1], [1, 0]] 2 2 (by unfold rect; decide) (by decide)
    (by decide) (-1) 5 7 0 1

/-- Two wrapped coordinates that differ by less than the modulus are
distinct. -/
theorem emod_toNat_ne {a b : Int} {n : Nat} (hn : 0 < n) (hab : a < b)
    (hd : b - a < (n : Int)) :
    (a % (n : Int)).toNat ≠ (b % (n : Int)).toNat := by
  intro he
  have hn' : (n : Int) ≠ 0 := by exact_mod_cast hn.ne'
  have ha1 : 0 ≤ a % (n : Int) := Int.emod_nonneg a hn'
  have hb1 : 0 ≤ b % (n : Int) := Int.emod_nonneg b hn'
  have heq : a % (n : Int) = b % (n : Int) := by omega
  rw [Int.emod_eq_emod_iff_emod_sub_eq_zero] at heq
  have hdvd : (n : Int) ∣ (a - b) := Int.dvd_of_emod_eq_zero heq
  have hdvd' : (n : Int) ∣ (b - a) := by
    have hba : b - a = -(a - b) := by ring
    rw [hba]
    exact dvd_neg.mpr hdvd
  have hle : (n : Int) ≤ b - a := Int.le_of_dvd (by omega) hdvd'
  omega

/-- The common reading of `count_neighbors` on a roomy board: restated with
named wrapped positions. On any board the eight reads of `count_neighbors`
are the cells at the eight `moore_neighbors` positions. -/
theorem count_neighbors_eq_sum {board : Board} (x y : Int) :
    count_neighbors board x y =
      ((moore_neighbors board x y).map (fun p => cell board p.1 p.2)).sum := by
  have hmap : (moore_neighbors board x y).map (fun p => cell board p.1 p.2) =
      [get board (x - 1) y, get board (x + 1) y, get board x (y - 1),
       get board x (y + 1), get board (x + 1) (y + 1), get board (x + 1) (y - 1),
       get board (x - 1) (y + 1), get board (x - 1) (y - 1)] := by
    simp only [moore_neighbors, moore_offsets, wrap_index, cell,
      List.map_cons, List.map_nil, add_zero, ← sub_eq_add_neg]
    rfl
  rw [hmap]
  rfl

/-- A sum of 0/1 values is the number of entries equal to 1. -/
theorem sum_map_eq_filter_length {α : Type _} (l : List α) (f : α → Nat)
    (hf : ∀ p ∈ l, f p = 0 ∨ f p = 1) :
    (l.map f).sum = (l.filter (fun p => f p == 1)).length := by
  induction l with
  | nil => rfl
  | cons hd tl ih =>
    have htl := ih (fun p hp => hf p (List.mem_cons_of_mem hd hp))
    rcases hf hd (List.mem_cons_self hd tl) with h0 | h1
    · simp [List.filter_cons, h0, htl]
    · simp [List.filter_cons, h1, htl, Nat.add_comm]

/-- Claim C3 (amended): on a rectangular 0/1 board with at least 3 rows and 3
columns, `count_neighbors(board, x, y)` is the number of live cells among the
eight wrapped Moore-neighbour positions, those eight positions are pairwise
distinct, the cell at `(x, y)` itself is never among them, and the count is at
most 8. (On narrower boards the wrapped neighbour positions collide and can
include the cell itself, which is the counterexample to the claim as stated.) -/
theorem C3_neighbors_amended {board : Board} {h w : Nat} (hb : rect board h w)
    (hh : 3 ≤ h) (hw : 3 ≤ w) (hc : cells01 board) (x y : Int) :
    count_neighbors board x y =
      ((moore_neighbors board x y).filter
        (fun p => cell board p.1 p.2 == 1)).length ∧
    (moore_neighbors board x y).Nodup ∧
    wrap_index board x y ∉ moore_neighbors board x y ∧
    count_neighbors board x y ≤ 8 := by
  have hh0 : 0 < h := by omega
  have hw0 : 0 < w := by omega
  have hlist : moore_neighbors board x y =
      [((y % (h : Int)).toNat, ((x - 1) % (w : Int)).toNat),
       ((y % (h : Int)).toNat, ((x + 1) % (w : Int)).toNat),
       (((y - 1) % (h : Int)).toNat, (x % (w : Int)).toNat),
       (((y + 1) % (h : Int)).toNat, (x % (w : Int)).toNat),
       (((y + 1) % (h : Int)).toNat, ((x + 1) % (w : Int)).toNat),
       (((y - 1) % (h : Int)).toNat, ((x + 1) % (w : Int)).toNat),
       (((y + 1) % (h : Int)).toNat, ((x - 1) % (w : Int)).toNat),
       (((y - 1) % (h : Int)).toNat, ((x - 1) % (w : Int)).toNat)] := by
    simp only [moore_neighbors, moore_offsets, wrap_index, List.map_cons,
      List.map_nil, add_zero, ← sub_eq_add_neg, hb.1, rect_head_len hb hh0]
  have hcenter : wrap_index board x y =
      ((y % (h : Int)).toNat, (x % (w : Int)).toNat) := by
    simp only [wrap_index, hb.1, rect_head_len hb hh0]
  have hrA : ((y - 1) % (h : Int)).toNat ≠ (y % (h : Int)).toNat :=
    emod_toNat_ne hh0 (by omega) (by omega)
  have hrB : (y % (h : Int)).toNat ≠ ((y + 1) % (h : Int)).toNat :=
    emod_toNat_ne hh0 (by omega) (by omega)
  have hrC : ((y - 1) % (h : Int)).toNat ≠ ((y + 1) % (h : Int)).toNat :=
    emod_toNat_ne hh0 (by omega) (by omega)
  have hcA : ((x - 1) % (w : Int)).toNat ≠ (x % (w : Int)).toNat :=
    emod_toNat_ne hw0 (by omega) (by omega)
  have hcB : (x % (w : Int)).toNat ≠ ((x + 1) % (w : Int)).toNat :=
    emod_toNat_ne hw0 (by omega) (by omega)
  have hcC : ((x - 1) % (w : Int)).toNat ≠ ((x + 1) % (w : Int)).toNat :=
    emod_toNat_ne hw0 (by omega) (by omega)
  have hle : count_neighbors board x y ≤ 8 := by
    have g1 := get_01 hb hh0 hw0 hc (x - 1) y
    have g2 := get_01 hb hh0 hw0 hc (x + 1) y
    have g3 := get_01 hb hh0 hw0 hc x (y - 1)
    have g4 := get_01 hb hh0 hw0 hc x (y + 1)
    have g5 := get_01 hb hh0 hw0 hc (x + 1) (y + 1)
    have g6 := get_01 hb hh0 hw0 hc (x + 1) (y - 1)
    have g7 := get_01 hb hh0 hw0 hc (x - 1) (y + 1)
    have g8 := get_01 hb hh0 hw0 hc (x - 1) (y - 1)
    unfold count_neighbors
    simp only [List.sum_cons, List.sum_nil]
    omega
  refine ⟨?_, ?_, ?_, hle⟩
  · rw [count_neighbors_eq_sum]
    refine sum_map_eq_filter_length _ _ (fun p hp => ?_)
    rw [hlist] at hp
    simp only [List.mem_cons, List.not_mem_nil, or_false] at hp
    rcases hp with rfl | rfl | rfl | rfl | rfl | rfl | rfl | rfl <;>
      exact cell_01 hb hc (emod_toNat_lt _ hh0) (emod_toNat_lt _ hw0)
  · have hrA' := hrA.symm
    have hrB' := hrB.symm
    have hrC' := hrC.symm
    have hcA' := hcA.symm
    have hcB' := hcB.symm
    have hcC' := hcC.symm
    rw [hlist]
    simp only [List.nodup_cons, List.mem_cons, List.not_mem_nil, or_false,
      List.nodup_nil, and_true, not_or, ne_eq, Prod.mk.injEq, not_and]
    tauto
  · have hrA' := hrA.symm
    have hrB' := hrB.symm
    have hrC' := hrC.symm
    have hcA' := hcA.symm
    have hcB' := hcB.symm
    have hcC' := hcC.symm
    rw [hlist, hcenter]
    simp only [List.mem_cons, List.not_mem_nil, or_false, Prod.mk.injEq, not_or,
      not_and]
    tauto

/-- Counterexample to C3 as stated: on the non-empty rectangular board
`[[1]]` all eight wrapped Moore-neighbour positions coincide with the cell
`(0, 0)` itself, so `count_neighbors` returns 8 by counting the cell itself
with multiplicity, not the number of live cells among distinct neighbours
(which would be 0). -/
theorem C3_counterexample :
    count_neighbors [[1]] 0 0 = 8 ∧
    wrap_index [[1]] 0 0 ∈ moore_neighbors [[1]] 0 0 ∧
    ¬ (moore_neighbors [[1]] 0 0).Nodup ∧
    ((moore_neighbors [[1]] 0 0).dedup.filter
      (fun p => cell [[1]] p.1 p.2 == 1)).length ≠
      count_neighbors [[1]] 0 0 := by
  decide

/-- Witness for the amended C3 on a 3×3 board. -/
theorem C3_neighbors_amended_witness :
    count_neighbors [[1, 0, 0], [0, 1, 0], [0, 0, 1]] 1 1 =
      ((moore_neighbors [[1, 0, 0], [0, 1, 0], [0, 0, 1]] 1 1).filter
        (fun p => cell [[1, 0, 0], [0, 1, 0], [0, 0, 1]] p.1 p.2 == 1)).length ∧
    (moore_neighbors [[1, 0, 0], [0, 1, 0], [0, 0, 1]] 1 1).Nodup ∧
    wrap_index [[1, 0, 0], [0, 1, 0], [0, 0, 1]] 1 1 ∉
      moore_neighbors [[1, 0, 0], [0, 1, 0], [0, 0, 1]] 1 1 ∧
    count_neighbors [[1, 0, 0], [0, 1, 0], [0, 0, 1]] 1 1 ≤ 8 :=
  @C3_neighbors_amended [[1, 0, 0], [0, 1, 0], [0, 0, 1]] 3 3
    (by unfold rect; decide) (by decide) (by decide)
    (by unfold cells01; decide) 1 1

/-- Claim C6: `process_life` terminates and does O(width×height) work: its
nested loops visit exactly the `h × w` cell positions, each exactly once (the
visit list has length `h * w`, has no duplicates, and contains exactly the
in-range positions), and the whole computation is the fold of one
neighbor-count-and-assign step over that visit list. -/
theorem C6_work {board : Board} {h w : Nat} (hb : rect board h w)
    (rand : Nat → Nat → Nat) (y x : Nat) :
    (life_visits board).length = h * w ∧
    (life_visits board).Nodup ∧
    ((y, x) ∈ life_visits board ↔ y < h ∧ x < w) ∧
    process_life board rand =
      (life_visits board).foldl (fun nb p =>
        assign nb (p.2 : Int) (p.1 : Int) (next_cell board p.2 p.1))
      (new_board (board.headD []).length board.length rand) := by
  refine ⟨?_, ?_, ?_, ?_⟩
  · rw [life_visits, List.length_flatten, List.map_map]
    have hconst : List.map (List.length ∘ fun a =>
        List.map (fun b => (a, b)) (List.range (board.getD a []).length))
        (List.range board.length) =
        List.map (fun a => w) (List.range board.length) := by
      refine List.map_congr_left (fun a ha => ?_)
      rw [List.mem_range] at ha
      simp only [Function.comp_apply, List.length_map, List.length_range]
      exact rect_row_len hb (hb.1 ▸ ha)
    rw [hconst, List.map_const', List.sum_replicate, List.length_range, hb.1,
      smul_eq_mul, Nat.mul_comm]
  · rw [life_visits, List.nodup_flatten]
    constructor
    · intro l hl
      simp only [List.mem_map, List.mem_range] at hl
      obtain ⟨a, ha, rfl⟩ := hl
      exact (List.nodup_range _).map (fun x1 x2 hx => by simpa using hx)
    · rw [List.pairwise_map]
      refine (List.pairwise_lt_range _).imp (fun hab p hp1 hp2 => ?_)
      simp only [List.mem_map, List.mem_range] at hp1 hp2
      obtain ⟨b1, hb1, rfl⟩ := hp1
      obtain ⟨b2, hb2, heq⟩ := hp2
      have := (Prod.mk.injEq _ _ _ _).mp heq
      omega
  · rw [life_visits, List.mem_flatten]
    constructor
    · rintro ⟨l, hl, hmem⟩
      simp only [List.mem_map, List.mem_range] at hl
      obtain ⟨a, ha, rfl⟩ := hl
      simp only [List.mem_map, List.mem_range] at hmem
      obtain ⟨b, hbb, heq⟩ := hmem
      have hab := (Prod.mk.injEq _ _ _ _).mp heq
      obtain ⟨rfl, rfl⟩ := hab
      refine ⟨hb.1 ▸ ha, ?_⟩
      rw [rect_row_len hb (hb.1 ▸ ha)] at hbb
      exact hbb
    · rintro ⟨hy, hx⟩
      refine ⟨List.map (fun b => (y, b)) (List.range (board.getD y []).length),
        ?_, ?_⟩
      · simp only [List.mem_map, List.mem_range]
        exact ⟨y, hb.1 ▸ hy, rfl⟩
      · simp only [List.mem_map, List.mem_range]
        refine ⟨x, ?_, rfl⟩
        rw [rect_row_len hb hy]
        exact hx
  · rw [process_life_eq, life_visits, List.foldl_flatten, List.foldl_map]
    simp only [List.foldl_map]

/-- Witness for C6 on a concrete 2×3 board. -/
theorem C6_work_witness :
    (life_visits [[1, 0, 1], [0, 1, 0]]).length = 2 * 3 ∧
    (life_visits [[1, 0, 1], [0, 1, 0]]).Nodup ∧
    ((1, 2) ∈ life_visits [[1, 0, 1], [0, 1, 0]] ↔ 1 < 2 ∧ 2 < 3) ∧
    process_life [[1, 0, 1], [0, 1, 0]] (fun a b => 1) =
      (life_visits [[1, 0, 1], [0, 1, 0]]).foldl (fun nb p =>
        assign nb (p.2 : Int) (p.1 : Int)
          (next_cell [[1, 0, 1], [0, 1, 0]] p.2 p.1))
      (new_board ([[1, 0, 1], [0, 1, 0]].headD []).length
        [[1, 0, 1], [0, 1, 0]].length (fun a b => 1)) :=
  @C6_work [[1, 0, 1], [0, 1, 0]] 2 3 (by unfold rect; decide) (fun a b => 1) 1 2

/-- The full description of the animation loop: the board after `n`
iterations is the `n`-fold application of `process_life`, and the `k`-th
record list handed to the layer was computed from the board of iteration
`k + 1`. -/
theorem animation_loop_spec (board0 : Board) (rands : Nat → Nat → Nat → Nat)
    (n : Nat) :
    (animation_loop board0 rands n).1 = iterate_life board0 rands n ∧
    (animation_loop board0 rands n).2.length = n ∧
    ∀ k, k < n → (animation_loop board0 rands n).2.getD k [] =
      convert_board_to_df (iterate_life board0 rands (k + 1)) := by
  induction n with
  | zero => exact ⟨rfl, rfl, fun k hk => absurd hk (by omega)⟩
  | succ m ih =>
    obtain ⟨ih1, ih2, ih3⟩ := ih
    have hstep : animation_loop board0 rands (m + 1) =
        (process_life (animation_loop board0 rands m).1 (rands m),
         (animation_loop board0 rands m).2 ++
           [convert_board_to_df
             (process_life (animation_loop board0 rands m).1 (rands m))]) := by
      unfold animation_loop
      rw [List.range_succ, List.foldl_append, List.foldl_cons, List.foldl_nil]
    refine ⟨?_, ?_, ?_⟩
    · rw [hstep, ih1]
      rfl
    · rw [hstep]
      show ((animation_loop board0 rands m).2 ++ [_]).length = m + 1
      rw [List.length_append, ih2]
      rfl
    · intro k hk
      rw [hstep]
      show ((animation_loop board0 rands m).2 ++ [_]).getD k [] = _
      by_cases hkm : k < m
      · rw [List.getD_append _ _ _ _ (show k < (animation_loop board0 rands m).2.length by
          rw [ih2]
          exact hkm)]
        exact ih3 k hkm
      · have hkm' : k = m := by omega
        subst hkm'
        rw [List.getD_eq_getElem?_getD, List.getElem?_append_right (le_of_eq ih2),
          ih2]
        simp only [Nat.sub_self, List.getElem?_cons_zero, Option.getD_some]
        rw [ih1]
        rfl

/-- Claim C7: the animation loops execute strictly sequentially. After `n`
iterations the current board is the `n`-fold application of `process_life` to
the initial board, the loop has handed over exactly `n` record lists, and the
`k`-th record list was computed from iteration `k + 1`'s board before that
iteration's refresh, with no reordering across iterations. -/
theorem C7_sequential (board0 : Board) (rands : Nat → Nat → Nat → Nat)
    (n k : Nat) (hk : k < n) :
    (animation_loop board0 rands n).1 = iterate_life board0 rands n ∧
    (animation_loop board0 rands n).2.length = n ∧
    (animation_loop board0 rands n).2.getD k [] =
      convert_board_to_df (iterate_life board0 rands (k + 1)) := by
  obtain ⟨h1, h2, h3⟩ := animation_loop_spec board0 rands n
  exact ⟨h1, h2, h3 k hk⟩

/-- Witness for C7: two iterations on a concrete board, looking at the second
record list. -/
theorem C7_sequential_witness :
    (animation_loop [[1, 1], [1, 0]] (fun i a b => 0) 2).1 =
      iterate_life [[1, 1], [1, 0]] (fun i a b => 0) 2 ∧
    (animation_loop [[1, 1], [1, 0]] (fun i a b => 0) 2).2.length = 2 ∧
    (animation_loop [[1, 1], [1, 0]] (fun i a b => 0) 2).2.getD 1 [] =
      convert_board_to_df (iterate_life [[1, 1], [1, 0]] (fun i a b => 0) (1 + 1)) :=
  C7_sequential [[1, 1], [1, 0]] (fun i a b => 0) 2 1 (by decide)

/-- A raised exception passes through the rest of the inner loop. -/
theorem foldl_df_step_error (board : Board) (it x : Nat) (e : PyError)
    (l : List Nat) :
    l.foldl (df_iter_step board it x) (Except.error e) = Except.error e := by
  induction l with
  | nil => rfl
  | cons hd tl ih =>
    rw [List.foldl_cons]
    exact ih

/-- A column whose cells are all alive only appends records. -/
theorem df_col_ok (board : Board) (it x : Nat) (m : Nat)
    (halive : ∀ yy, yy < m → cell board yy x ≠ 0) :
    ∀ rows, ∃ l, (List.range m).foldl (df_iter_step board it x)
      (Except.ok rows) = Except.ok (rows ++ l) := by
  induction m with
  | zero =>
    intro rows
    exact ⟨[], by simp⟩
  | succ k ih =>
    intro rows
    obtain ⟨l, hl⟩ := ih (fun yy hy => halive yy (by omega)) rows
    refine ⟨l ++ [LifeRecord3.mk
      ((x : Rat) / 1000, (k : Rat) / 1000, (it : Rat) * 1000) PURPLE], ?_⟩
    rw [List.range_succ, List.foldl_append, hl, List.foldl_cons, List.foldl_nil]
    show df_iter_step board it x (Except.ok (rows ++ l)) k = _
    simp only [df_iter_step]
    rw [if_pos (halive k (by omega))]
    rw [List.append_assoc]

/-- A column with a dead cell raises the `TRANSPARENT` `NameError`. -/
theorem df_col_err (board : Board) (it x : Nat) :
    ∀ m : Nat, (∃ yy, yy < m ∧ cell board yy x = 0) →
    ∀ rows, (List.range m).foldl (df_iter_step board it x) (Except.ok rows) =
      Except.error (PyError.nameError ("TRANSPARENT")) := by
  intro m
  induction m with
  | zero =>
    rintro ⟨yy, hy, hc0⟩ rows
    exact absurd hy (by omega)
  | succ k ih =>
    rintro hdead rows
    rw [List.range_succ, List.foldl_append, List.foldl_cons, List.foldl_nil]
    by_cases hk : ∃ yy, yy < k ∧ cell board yy x = 0
    · rw [ih hk rows]
      rfl
    · have halive : ∀ yy, yy < k → cell board yy x ≠ 0 := by
        intro yy hy hc0
        exact hk ⟨yy, hy, hc0⟩
      obtain ⟨l, hl⟩ := df_col_ok board it x k halive rows
      rw [hl]
      obtain ⟨yy, hy, hc0⟩ := hdead
      have hyk : yy = k := by
        by_contra hne
        exact hk ⟨yy, by omega, hc0⟩
      subst hyk
      show df_iter_step board it x (Except.ok (rows ++ l)) yy = _
      simp only [df_iter_step]
      rw [if_neg (not_not_intro hc0)]
      rfl

/-- Columns whose cells are all alive only append records. -/
theorem df_out_ok (board : Board) (it : Nat) :
    ∀ n : Nat, (∀ xx, xx < n → ∀ yy, yy < board.length → cell board yy xx ≠ 0) →
    ∀ rows, ∃ l, (List.range n).foldl (df_iter_col board it)
      (Except.ok rows) = Except.ok (rows ++ l) := by
  intro n
  induction n with
  | zero =>
    intro _ rows
    exact ⟨[], by simp⟩
  | succ k ih =>
    intro halive rows
    obtain ⟨l, hl⟩ := ih (fun xx hx => halive xx (by omega)) rows
    rw [List.range_succ, List.foldl_append, hl, List.foldl_cons, List.foldl_nil]
    obtain ⟨l2, hl2⟩ := df_col_ok board it k board.length
      (fun yy hy => halive k (by omega) yy hy) (rows ++ l)
    refine ⟨l ++ l2, ?_⟩
    show df_iter_col board it (Except.ok (rows ++ l)) k = _
    unfold df_iter_col
    rw [hl2, List.append_assoc]

/-- As soon as some column contains a dead cell, the whole conversion raises
the `TRANSPARENT` `NameError`. -/
theorem df_out_err (board : Board) (it : Nat) :
    ∀ n : Nat, (∃ xx, xx < n ∧ ∃ yy, yy < board.length ∧ cell board yy xx = 0) →
    ∀ rows, (List.range n).foldl (df_iter_col board it) (Except.ok rows) =
      Except.error (PyError.nameError ("TRANSPARENT")) := by
  intro n
  induction n with
  | zero =>
    rintro ⟨xx, hx, _⟩ rows
    exact absurd hx (by omega)
  | succ k ih =>
    rintro hdead rows
    rw [List.range_succ, List.foldl_append, List.foldl_cons, List.foldl_nil]
    by_cases hk : ∃ xx, xx < k ∧ ∃ yy, yy < board.length ∧ cell board yy xx = 0
    · rw [ih hk rows]
      show df_iter_col board it (Except.error _) k = _
      unfold df_iter_col
      exact foldl_df_step_error board it k _ _
    · have halive : ∀ xx, xx < k → ∀ yy, yy < board.length →
          cell board yy xx ≠ 0 := by
        intro xx hx yy hy hc0
        exact hk ⟨xx, hx, yy, hy, hc0⟩
      obtain ⟨l, hl⟩ := df_out_ok board it k halive rows
      rw [hl]
      obtain ⟨xx, hx, yy, hy, hc0⟩ := hdead
      have hxk : xx = k := by
        by_contra hne
        exact hk ⟨xx, by omega, yy, hy, hc0⟩
      subst hxk
      show df_iter_col board it (Except.ok (rows ++ l)) xx = _
      unfold df_iter_col
      exact df_col_err board it xx board.length ⟨yy, hy, hc0⟩ (rows ++ l)

/-- Claim C8: the stacked-iterations `convert_board_to_df(board, iteration)`
raises a `NameError` for the undefined name `TRANSPARENT` exactly when the
board contains at least one dead cell, because the dead-cell color expression
references `TRANSPARENT`, which is never defined (the constant defined in
that cell is `BLACK`); on a board whose cells are all alive it succeeds. -/
theorem C8_transparent {board : Board} {h w : Nat} (hb : rect board h w)
    (hh : 0 < h) (hw : 0 < w) (it : Nat) :
    ((∃ i, i < h ∧ ∃ j, j < w ∧ cell board i j = 0) →
      convert_board_to_df_iter board it =
        Except.error (PyError.nameError ("TRANSPARENT"))) ∧
    ((∀ i, i < h → ∀ j, j < w → cell board i j ≠ 0) →
      ∃ l, convert_board_to_df_iter board it = Except.ok l) := by
  constructor
  · rintro ⟨i, hi, j, hj, hc0⟩
    show (List.range (board.headD []).length).foldl (df_iter_col board it)
      (Except.ok []) = _
    rw [rect_head_len hb hh]
    refine df_out_err board it w ⟨j, hj, i, ?_, hc0⟩ []
    rw [hb.1]
    exact hi
  · intro halive
    show ∃ l, (List.range (board.headD []).length).foldl (df_iter_col board it)
      (Except.ok []) = Except.ok l
    rw [rect_head_len hb hh]
    obtain ⟨l, hl⟩ := df_out_ok board it w
      (fun xx hx yy hy => halive yy (hb.1 ▸ hy) xx hx) []
    exact ⟨[] ++ l, hl⟩

/-- Witness for C8 on the one-cell dead board `[[0]]`. -/
theorem C8_transparent_witness :
    ((∃ i, i < 1 ∧ ∃ j, j < 1 ∧ cell [[0]] i j = 0) →
      convert_board_to_df_iter [[0]] 5 =
        Except.error (PyError.nameError ("TRANSPARENT"))) ∧
    ((∀ i, i < 1 → ∀ j, j < 1 → cell [[0]] i j ≠ 0) →
      ∃ l, convert_board_to_df_iter [[0]] 5 = Except.ok l) :=
  @C8_transparent [[0]] 1 1 (by unfold rect; decide) (by decide) (by decide) 5

/-- Claim C9: re-rendering proceeds by in-place mutation plus refresh. The
update loop of `Introduction.ipynb` only rebinds `elevation_range` on the
existing layer object and calls `r.update()`: the deck is untouched, every
other layer attribute is unchanged, the final rebinding is `[0, 9000]`, the
emitted trace is exactly ten set-attribute/update pairs, and no layer or deck
construction event occurs in the loop. -/
theorem C9_update_in_place (l : Layer) (d : Deck) :
    (intro_loop l d).1.2 = d ∧
    (intro_loop l d).1.1.type = l.type ∧
    (intro_loop l d).1.1.data = l.data ∧
    (intro_loop l d).1.1.elevation_scale = l.elevation_scale ∧
    (intro_loop l d).1.1.extruded = l.extruded ∧
    (intro_loop l d).1.1.coverage = l.coverage ∧
    (intro_loop l d).1.1.elevation_range = [0, 9000] ∧
    (intro_loop l d).2 =
      [RenderEvent.setLayerAttr ("elevation_range"), RenderEvent.update,
       RenderEvent.setLayerAttr ("elevation_range"), RenderEvent.update,
       RenderEvent.setLayerAttr ("elevation_range"), RenderEvent.update,
       RenderEvent.setLayerAttr ("elevation_range"), RenderEvent.update,
       RenderEvent.setLayerAttr ("elevation_range"), RenderEvent.update,
       RenderEvent.setLayerAttr ("elevation_range"), RenderEvent.update,
       RenderEvent.setLayerAttr ("elevation_range"), RenderEvent.update,
       RenderEvent.setLayerAttr ("elevation_range"), RenderEvent.update,
       RenderEvent.setLayerAttr ("elevation_range"), RenderEvent.update,
       RenderEvent.setLayerAttr ("elevation_range"), RenderEvent.update] ∧
    RenderEvent.constructLayer ∉ (intro_loop l d).2 ∧
    RenderEvent.constructDeck ∉ (intro_loop l d).2 := by
  have htr : (intro_loop l d).2 =
      [RenderEvent.setLayerAttr ("elevation_range"), RenderEvent.update,
       RenderEvent.setLayerAttr ("elevation_range"), RenderEvent.update,
       RenderEvent.setLayerAttr ("elevation_range"), RenderEvent.update,
       RenderEvent.setLayerAttr ("elevation_range"), RenderEvent.update,
       RenderEvent.setLayerAttr ("elevation_range"), RenderEvent.update,
       RenderEvent.setLayerAttr ("elevation_range"), RenderEvent.update,
       RenderEvent.setLayerAttr ("elevation_range"), RenderEvent.update,
       RenderEvent.setLayerAttr ("elevation_range"), RenderEvent.update,
       RenderEvent.setLayerAttr ("elevation_range"), RenderEvent.update,
       RenderEvent.setLayerAttr ("elevation_range"), RenderEvent.update] := rfl
  refine ⟨rfl, rfl, rfl, rfl, rfl, rfl, rfl, htr, ?_, ?_⟩ <;> rw [htr] <;> decide

/-- Claim C10 (spec-modelled serializer): the JSON specification a `Deck`
sends to the rendering widget is an object whose keys include
`initialViewState`, `layers` and `views`; the `layers` entry is the list of
layer descriptors, and the descriptor of every layer of the deck carries the
`type` tag at the head of its property bag. -/
theorem C10_json_shape (d : JDeck) (l : JLayer) (hl : l ∈ d.layers) :
    jkeys (deck_to_json d) = ["initialViewState", "layers", "views"] ∧
    jget (deck_to_json d) "layers" =
      some (JValue.jarr (d.layers.map (fun la =>
        JValue.jobj (("type", JValue.jstr la.type) :: la.props)))) ∧
    JValue.jobj (("type", JValue.jstr l.type) :: l.props) ∈
      d.layers.map (fun la =>
        JValue.jobj (("type", JValue.jstr la.type) :: la.props)) ∧
    "type" ∈ jkeys (JValue.jobj (("type", JValue.jstr l.type) :: l.props)) := by
  refine ⟨rfl, rfl, ?_, ?_⟩
  · exact List.mem_map_of_mem _ hl
  · show "type" ∈ "type" :: l.props.map Prod.fst
    exact List.mem_cons_self _ _

/-- Witness for C10 on a one-layer deck mirroring the Introduction example. -/
theorem C10_json_shape_witness :
    jkeys (deck_to_json (JDeck.mk [("zoom", JValue.jnum 6)]
        [JLayer.mk "HexagonLayer" [("coverage", JValue.jnum 1)]] [])) =
      ["initialViewState", "layers", "views"] ∧
    jget (deck_to_json (JDeck.mk [("zoom", JValue.jnum 6)]
        [JLayer.mk "HexagonLayer" [("coverage", JValue.jnum 1)]] [])) "layers" =
      some (JValue.jarr ([JLayer.mk "HexagonLayer"
        [("coverage", JValue.jnum 1)]].map (fun la =>
          JValue.jobj (("type", JValue.jstr la.type) :: la.props)))) ∧
    JValue.jobj (("type",
        JValue.jstr (JLayer.mk "HexagonLayer" [("coverage", JValue.jnum 1)]).type) ::
        (JLayer.mk "HexagonLayer" [("coverage", JValue.jnum 1)]).props) ∈
      [JLayer.mk "HexagonLayer" [("coverage", JValue.jnum 1)]].map (fun la =>
        JValue.jobj (("type", JValue.jstr la.type) :: la.props)) ∧
    "type" ∈ jkeys (JValue.jobj (("type",
        JValue.jstr (JLayer.mk "HexagonLayer" [("coverage", JValue.jnum 1)]).type) ::
        (JLayer.mk "HexagonLayer" [("coverage", JValue.jnum 1)]).props)) :=
  C10_json_shape (JDeck.mk [("zoom", JValue.jnum 6)]
    [JLayer.mk "HexagonLayer" [("coverage", JValue.jnum 1)]] [])
    (JLayer.mk "HexagonLayer" [("coverage", JValue.jnum 1)])
    (List.mem_cons_self _ _)
